import Mathlib

/-!
Verification of the racunis job-queue library core.

The definitions below are shallow embeddings of the TypeScript sources:
* `JobState`, `Job` — `packages/core/src/types.ts`
* `compareJobs` — `packages/core/src/test-utils/compareJobs.ts`
* `MockStore` operations — `MockDatabasePoolClient`
* `SqlStore` operations — `PostgreSqlPoolClient` / `MySqlPoolClient`
* `retry`, `MaxRetriesError` — `packages/core/src/utils/retry.ts`
* `processJob` — `AbstractDatabaseWorker.#processJob`
* queue registry — `AbstractDatabaseQueue` constructor / `close`

Timestamps are modelled as natural numbers (milliseconds since epoch,
matching `Date.getTime()`); JavaScript numbers used as job priorities are
modelled as `Int`; database-nullable strings as `Option String`.
-/

namespace Racunis

/-- The four job states of `JobState` in `types.ts`. -/
inductive JobState : Type where
  | waiting
  | active
  | completed
  | failed
deriving DecidableEq, Repr

/-- A job row, as in the `Job` interface of `types.ts`.  `errorMessage` is
`none` when the TypeScript value is `undefined`/`NULL`. `createdAt` and
`updatedAt` are millisecond timestamps (`Date.getTime()`). -/
structure Job (P : Type) where
  id : Nat
  payload : P
  state : JobState
  priority : Int
  errorMessage : Option String := none
  createdAt : Nat
  updatedAt : Nat
deriving DecidableEq, Repr

/-- The dequeue comparator of `test-utils/compareJobs.ts`:
priority descending, then `createdAt` ascending, then `id` ascending. -/
def compareJobs {P : Type} (a b : Job P) : Int :=
  if a.priority ≠ b.priority then b.priority - a.priority
  else if a.createdAt ≠ b.createdAt then (a.createdAt : Int) - (b.createdAt : Int)
  else (a.id : Int) - (b.id : Int)

/-- Boolean form of the comparator order, used for sorting: `a` sorts no later
than `b` exactly when the comparator returns a non-positive value (the
contract of `Array.prototype.sort`). -/
def jobLE {P : Type} (a b : Job P) : Bool :=
  compareJobs a b ≤ 0

/-- Sorting a job list with `compareJobs`, modelling
`MockDatabasePoolClient.jobs.sort(compareJobs)` and the SQL
`ORDER BY priority DESC, createdAt, id` clause. -/
def sortJobs {P : Type} (jobs : List (Job P)) : List (Job P) :=
  jobs.mergeSort jobLE

/-- In-place update of the first job carrying a given id, modelling the
mutation performed by `MockDatabasePoolClient.updateJobStateById` on the
object found by `jobs.find(job => job.id === id)`. -/
def updateFirst {P : Type} (l : List (Job P)) (id : Nat) (f : Job P → Job P) :
    List (Job P) :=
  match l with
  | [] => []
  | j :: rest => if j.id = id then f j :: rest else j :: updateFirst rest id f

/-- The error taxonomy of `AbstractDatabasePoolClient.ts`.
`JobNotFoundError` carries the details object; `AcquirableJobNotFoundError`
is the subclass with `details = { state: waiting }` and an overridden `name`,
modelled here as values of the shared structure. -/
structure JobNotFoundError where
  name : String
  detailsId : Option Nat
  detailsState : Option JobState
deriving DecidableEq, Repr

/-- `new JobNotFoundError({ id })`. -/
def jobNotFoundError (id : Nat) : JobNotFoundError :=
  { name := "JobNotFoundError", detailsId := some id, detailsState := none }

/-- `new AcquirableJobNotFoundError()`. -/
def acquirableJobNotFoundError : JobNotFoundError :=
  { name := "AcquirableJobNotFoundError", detailsId := none,
    detailsState := some JobState.waiting }

/-- The static state of `MockDatabasePoolClient`: the `jobs` array, the
`lockedJobsIds` array and the `id` counter. -/
structure MockStore (P : Type) where
  jobs : List (Job P)
  lockedJobsIds : List Nat
  nextId : Nat
deriving DecidableEq, Repr

/-- `MockDatabasePoolClient.insertJob`: push a fresh job built from the
payload, state and priority, with both timestamps set to `now`. -/
def MockStore.insertJob {P : Type} (s : MockStore P) (now : Nat) (payload : P)
    (state : JobState) (priority : Int) : Job P × MockStore P :=
  let waitingJob : Job P :=
    { id := s.nextId, payload := payload, state := state, priority := priority,
      errorMessage := none, createdAt := now, updatedAt := now }
  (waitingJob,
    { s with jobs := s.jobs ++ [waitingJob], nextId := s.nextId + 1 })

/-- `MockDatabasePoolClient.updateJobStateById`: find the first job with the
given id, mutate its state, error message and `updatedAt`, and return a copy;
throw `JobNotFoundError` when no job matches. -/
def MockStore.updateJobStateById {P : Type} (s : MockStore P) (now : Nat) (id : Nat)
    (state : JobState) (errorMessage : Option String) :
    Except JobNotFoundError (Job P) × MockStore P :=
  match s.jobs.find? (fun j => j.id = id) with
  | none => (.error (jobNotFoundError id), s)
  | some j =>
    (.ok { j with state := state, errorMessage := errorMessage,
                  updatedAt := now },
      { s with jobs := (updateFirst s.jobs id
          (fun k => { k with state := state, errorMessage := errorMessage,
                             updatedAt := now })) })

/-- The predicate of the `find` in `MockDatabasePoolClient.acquireJob`:
`job.state === JobState.waiting && !lockedJobsIds.includes(job.id)`. -/
def MockStore.acquirable {P : Type} (locked : List Nat) (j : Job P) : Bool :=
  j.state = JobState.waiting && !(locked.contains j.id)

/-- `MockDatabasePoolClient.acquireJob`: sort the jobs array in place with
`compareJobs`, find the first waiting unlocked job, lock it, flip it to
`active` via `updateJobStateById`, unlock it and commit; when no job is
found, throw `AcquirableJobNotFoundError` (the rollback is a no-op, but the
in-place sort of the static array persists). -/
def MockStore.acquireJob {P : Type} (s : MockStore P) (now : Nat) :
    Except JobNotFoundError (Job P) × MockStore P :=
  let sorted := sortJobs s.jobs
  let s₁ : MockStore P := { s with jobs := sorted }
  match sorted.find? (MockStore.acquirable s.lockedJobsIds) with
  | none => (.error acquirableJobNotFoundError, s₁)
  | some w =>
    let s₂ : MockStore P :=
      { s₁ with lockedJobsIds := s₁.lockedJobsIds ++ [w.id] }
    match s₂.updateJobStateById now w.id JobState.active none with
    | (.error e, s₃) => (.error e, s₃)
    | (.ok activeJob, s₃) =>
      (.ok activeJob,
        { s₃ with lockedJobsIds :=
            s₃.lockedJobsIds.filter (fun i => i ≠ activeJob.id) })

/-- `MockDatabasePoolClient.deleteJobsByState`: keep exactly the jobs whose
state is not among the given states. -/
def MockStore.deleteJobsByState {P : Type} (s : MockStore P) (states : List JobState) :
    MockStore P :=
  { s with jobs := s.jobs.filter (fun j => !(states.contains j.state)) }

/-- `AbstractDatabaseQueue.drain`: delete all waiting jobs. -/
def MockStore.drain {P : Type} (s : MockStore P) : MockStore P :=
  s.deleteJobsByState [JobState.waiting]

/-- `AbstractDatabaseQueue.empty`: delete the jobs in all four states. -/
def MockStore.empty {P : Type} (s : MockStore P) : MockStore P :=
  s.deleteJobsByState
    [JobState.waiting, JobState.active, JobState.completed, JobState.failed]

/-- The record update applied to a job when `acquireJob` flips it to
`active` (the `errorMessage` argument of the inner `updateJobStateById`
call is omitted, hence cleared). -/
def activateJob {P : Type} (now : Nat) (j : Job P) : Job P :=
  { j with state := JobState.active, errorMessage := none, updatedAt := now }

/-- `MaxRetriesError` of `utils/retry.ts`: its constructor takes the retry
count and the last error; we record the count and the last error's message. -/
structure MaxRetriesError where
  retries : Int
  causeMessage : String
deriving DecidableEq, Repr

/-- The message built by the `MaxRetriesError` constructor:
`` `Function failed after ${retries} retries: ${error.message}` ``. -/
def MaxRetriesError.message (e : MaxRetriesError) : String :=
  "Function failed after " ++ toString e.retries ++ " retries: " ++
    e.causeMessage

/-- The recursive `attempt` closure inside `retry` (`utils/retry.ts`).
`fn k` models the behaviour of the user-supplied function on its `k`-th call
(1-indexed), yielding either a result or the message of the normalized
error.  The second component counts how many times the function was called.
The `delayInterval` sleep has no bearing on the result and is not modelled.
`maxRetries` is kept as an `Int` because JavaScript imposes no lower bound
on it. -/
def retryAttempt {A : Type} (fn : Nat → Except String A) (maxRetries : Int)
    (currentAttempt : Nat) : Except MaxRetriesError A × Nat :=
  match fn currentAttempt with
  | .ok a => (.ok a, 1)
  | .error e =>
    if (currentAttempt : Int) ≥ maxRetries then
      (.error ⟨maxRetries, e⟩, 1)
    else
      let r := retryAttempt fn maxRetries (currentAttempt + 1)
      (r.1, r.2 + 1)
termination_by (maxRetries - currentAttempt).toNat
decreasing_by omega

/-- `retry(fn, maxRetries, delayInterval)`: run `attempt(1)`. -/
def retry {A : Type} (fn : Nat → Except String A) (maxRetries : Int) :
    Except MaxRetriesError A × Nat :=
  retryAttempt fn maxRetries 1

/-- The worker/queue events emitted by `AbstractDatabaseWorker.#processJob`
(each is emitted once on the worker and once on the queue dispatcher; the
payloads are identical, so one list records the order). -/
inductive WorkerEvent (P : Type) where
  | activated (job : Job P)
  | completed (job : Job P)
  | failed (job : Job P) (error : MaxRetriesError)
deriving DecidableEq, Repr

/-- `AbstractDatabaseWorker.#processJob`, instantiated with the mock pool
client: acquire a job, emit `activated`, run the processor through `retry`;
on success mark the job `completed`, on a `MaxRetriesError` mark it `failed`
with the error's message (the thrown `MaxRetriesError` is already an
`Error`, so `normalizeError` returns it unchanged), emitting the matching
event.  `proc j k` is the processor's behaviour on its `k`-th call for job
`j`; the last component counts processor calls. -/
def processJob {P : Type} (now : Nat) (proc : Job P → Nat → Except String Unit)
    (maxRetries : Int) (s : MockStore P) :
    Except JobNotFoundError Unit × MockStore P × List (WorkerEvent P) × Nat :=
  match s.acquireJob now with
  | (.error e, s₁) => (.error e, s₁, [], 0)
  | (.ok activeJob, s₁) =>
    match retry (proc activeJob) maxRetries with
    | (.ok _, calls) =>
      match s₁.updateJobStateById now activeJob.id JobState.completed none with
      | (.error e, s₂) => (.error e, s₂, [.activated activeJob], calls)
      | (.ok completedJob, s₂) =>
        (.ok (), s₂, [.activated activeJob, .completed completedJob], calls)
    | (.error err, calls) =>
      match s₁.updateJobStateById now activeJob.id JobState.failed
          (some err.message) with
      | (.error e, s₂) => (.error e, s₂, [.activated activeJob], calls)
      | (.ok failedJob, s₂) =>
        (.ok (), s₂, [.activated activeJob, .failed failedJob err], calls)

/-- The record update applied to a job when the worker marks it `failed`
with the given message. -/
def failJob {P : Type} (now : Nat) (msg : String) (j : Job P) : Job P :=
  { j with state := JobState.failed, errorMessage := some msg,
           updatedAt := now }

/-- A SQL-backed queue table (`PostgreSqlPoolClient` / `MySqlPoolClient`):
the rows of the table named after the queue, plus the auto-increment
counter.  Rows reuse `Job`; a stored `errorMessage` of `none` models SQL
`NULL`, and the empty string is a legal stored value. -/
structure SqlStore (P : Type) where
  rows : List (Job P)
  nextId : Nat
deriving DecidableEq, Repr

/-- `job.errorMessage || undefined`: both `NULL` and the empty string (the
falsy values a text column can produce) collapse to `undefined`. -/
def normalizeErrorMessage : Option String → Option String
  | none => none
  | some s => if s = "" then none else some s

/-- `{ ...job, errorMessage: job.errorMessage || undefined }`, the shape in
which every PostgreSQL/MySQL client operation returns a row. -/
def Job.normalizeEm {P : Type} (j : Job P) : Job P :=
  { j with errorMessage := normalizeErrorMessage j.errorMessage }

/-- A returned job's `errorMessage` is either absent or a non-empty
string. -/
def emNormalized {P : Type} (j : Job P) : Prop :=
  j.errorMessage = none ∨ ∃ msg, j.errorMessage = some msg ∧ msg ≠ ""

/-- `emNormalized` on the result of a fallible client operation (errors
carry no job). -/
def exceptEmNormalized {P : Type} : Except JobNotFoundError (Job P) → Prop
  | .ok j => emNormalized j
  | .error _ => True

/-- How the `errorMessage` placeholder binds in the PostgreSQL client: the
`pg` driver serialises an omitted (`undefined`) parameter as SQL `NULL`, so
the `SET "errorMessage" = $2` clause stores the parameter as given. -/
def SqlStore.pgBindEm (em old : Option String) : Option String :=
  em

/-- Modelled from the spec: the behaviour of the `mysql2` parameter binding
for an omitted `errorMessage` is outside this repository; spec.md states
that "`updateJobStateById` in the MySQL path does not clear `errorMessage`
when transitioning to `completed`", i.e. an omitted parameter leaves the
stored value in place, while an explicit message overwrites it. -/
def SqlStore.mySqlBindEm (em old : Option String) : Option String :=
  match em with
  | some msg => some msg
  | none => old

/-- The row set after `UPDATE ... SET state = ?, errorMessage = ? WHERE
id = ?`: every matching row gets the new state, the bound error message and
— through the `updatedAt` trigger (PostgreSQL) or `ON UPDATE
CURRENT_TIMESTAMP(3)` (MySQL) — the current timestamp. -/
def SqlStore.updateRows {P : Type}
    (bindEm : Option String → Option String → Option String)
    (rows : List (Job P)) (now : Nat) (id : Nat) (state : JobState)
    (em : Option String) : List (Job P) :=
  rows.map fun r =>
    if r.id = id then
      { r with state := state, errorMessage := bindEm em r.errorMessage,
               updatedAt := now }
    else r

/-- `updateJobStateById` of the SQL clients: run the UPDATE, read back the
updated row (`RETURNING *` in PostgreSQL, a follow-up SELECT in MySQL),
throw `JobNotFoundError` when no row matched, and return the row with its
`errorMessage` normalized. -/
def SqlStore.updateJobStateById {P : Type}
    (bindEm : Option String → Option String → Option String)
    (s : SqlStore P) (now : Nat) (id : Nat) (state : JobState)
    (em : Option String) : Except JobNotFoundError (Job P) × SqlStore P :=
  let rows' := SqlStore.updateRows bindEm s.rows now id state em
  match rows'.find? (fun r => r.id = id) with
  | none => (.error (jobNotFoundError id), { s with rows := rows' })
  | some r => (.ok r.normalizeEm, { s with rows := rows' })

/-- `PostgreSqlPoolClient.updateJobStateById`. -/
def SqlStore.pgUpdateJobStateById {P : Type} (s : SqlStore P) (now : Nat) (id : Nat)
    (state : JobState) (em : Option String) :
    Except JobNotFoundError (Job P) × SqlStore P :=
  SqlStore.updateJobStateById SqlStore.pgBindEm s now id state em

/-- `MySqlPoolClient.updateJobStateById` (see `mySqlBindEm`). -/
def SqlStore.mySqlUpdateJobStateById {P : Type} (s : SqlStore P) (now : Nat)
    (id : Nat) (state : JobState) (em : Option String) :
    Except JobNotFoundError (Job P) × SqlStore P :=
  SqlStore.updateJobStateById SqlStore.mySqlBindEm s now id state em

/-- `insertJob` of the SQL clients: INSERT a row with the given payload,
state and priority (`errorMessage` is not in the column list, hence `NULL`;
both timestamps default to now), and return the inserted row — via
`RETURNING *` in PostgreSQL, via `SELECT ... WHERE id = insertId` in MySQL,
both yielding the freshly inserted row — with `errorMessage` normalized. -/
def SqlStore.insertJob {P : Type} (s : SqlStore P) (now : Nat) (payload : P)
    (state : JobState) (priority : Int) : Job P × SqlStore P :=
  let row : Job P :=
    { id := s.nextId, payload := payload, state := state,
      priority := priority, errorMessage := none, createdAt := now,
      updatedAt := now }
  (row.normalizeEm, { rows := s.rows ++ [row], nextId := s.nextId + 1 })

/-- `PostgreSqlPoolClient.insertJob`. -/
def SqlStore.pgInsertJob {P : Type} (s : SqlStore P) (now : Nat) (payload : P)
    (state : JobState) (priority : Int) : Job P × SqlStore P :=
  SqlStore.insertJob s now payload state priority

/-- `MySqlPoolClient.insertJob`. -/
def SqlStore.mySqlInsertJob {P : Type} (s : SqlStore P) (now : Nat) (payload : P)
    (state : JobState) (priority : Int) : Job P × SqlStore P :=
  SqlStore.insertJob s now payload state priority

/-- `acquireJob` of the SQL clients: inside one transaction, SELECT the
first waiting row in dequeue order (`ORDER BY priority DESC, createdAt,
id LIMIT 1 FOR UPDATE SKIP LOCKED`); with no row, ROLLBACK (restoring the
store) and throw `AcquirableJobNotFoundError`; otherwise flip it to
`active` through `updateJobStateById`, COMMIT, and return the updated row
with `errorMessage` normalized once more. -/
def SqlStore.acquireJobWith {P : Type}
    (bindEm : Option String → Option String → Option String)
    (s : SqlStore P) (now : Nat) :
    Except JobNotFoundError (Job P) × SqlStore P :=
  match (sortJobs s.rows).find? (fun r => r.state = JobState.waiting) with
  | none => (.error acquirableJobNotFoundError, s)
  | some w =>
    match SqlStore.updateJobStateById bindEm s now w.id JobState.active none with
    | (.error e, _) => (.error e, s)
    | (.ok j, s') => (.ok j.normalizeEm, s')

/-- `PostgreSqlPoolClient.acquireJob`. -/
def SqlStore.pgAcquireJob {P : Type} (s : SqlStore P) (now : Nat) :
    Except JobNotFoundError (Job P) × SqlStore P :=
  SqlStore.acquireJobWith SqlStore.pgBindEm s now

/-- `MySqlPoolClient.acquireJob`. -/
def SqlStore.mySqlAcquireJob {P : Type} (s : SqlStore P) (now : Nat) :
    Except JobNotFoundError (Job P) × SqlStore P :=
  SqlStore.acquireJobWith SqlStore.mySqlBindEm s now

/-- The message of the error thrown by the `AbstractDatabaseQueue`
constructor on a duplicate queue name:
`` `Queue with name '${name}' already exists.` `` -/
def duplicateQueueMessage (name : String) : String :=
  "Queue with name '" ++ name ++ "' already exists."

/-- The `AbstractDatabaseQueue` constructor's interaction with the
process-wide static `#instances` registry, modelled by the list of
registered names: a registered name throws synchronously, leaving the
registry untouched; otherwise the name is added. -/
def queueRegister (reg : List String) (name : String) :
    Except String Unit × List String :=
  if name ∈ reg then (.error (duplicateQueueMessage name), reg)
  else (.ok (), reg ++ [name])

/-- `AbstractDatabaseQueue.close`: after stopping workers and closing the
pool, `#instances.delete(name)` removes the name from the registry. -/
def queueClose (reg : List String) (name : String) : List String :=
  reg.filter (fun n => n ≠ name)

lemma compareJobs_neg_iff {P : Type} (a b : Job P) :
    compareJobs a b < 0 ↔
      (b.priority < a.priority ∨
        (a.priority = b.priority ∧
          (a.createdAt < b.createdAt ∨
            (a.createdAt = b.createdAt ∧ a.id < b.id)))) := by
  unfold compareJobs
  split_ifs with h1 h2 <;> omega

lemma compareJobs_nonpos_iff {P : Type} (a b : Job P) :
    compareJobs a b ≤ 0 ↔
      (b.priority < a.priority ∨
        (a.priority = b.priority ∧
          (a.createdAt < b.createdAt ∨
            (a.createdAt = b.createdAt ∧ a.id ≤ b.id)))) := by
  unfold compareJobs
  split_ifs with h1 h2 <;> omega

lemma compareJobs_eq_zero_iff {P : Type} (a b : Job P) :
    compareJobs a b = 0 ↔
      (a.priority = b.priority ∧ a.createdAt = b.createdAt ∧ a.id = b.id) := by
  unfold compareJobs
  split_ifs with h1 h2 <;> omega

lemma jobLE_refl {P : Type} (a : Job P) : jobLE a a := by
  simp [jobLE, compareJobs_nonpos_iff]

lemma jobLE_trans {P : Type} (a b c : Job P) :
    jobLE a b → jobLE b c → jobLE a c := by
  simp only [jobLE, decide_eq_true_eq, compareJobs_nonpos_iff]
  omega

lemma jobLE_total {P : Type} (a b : Job P) : jobLE a b || jobLE b a := by
  simp only [jobLE, Bool.or_eq_true, decide_eq_true_eq, compareJobs_nonpos_iff]
  omega

lemma sortJobs_perm {P : Type} (jobs : List (Job P)) :
    (sortJobs jobs).Perm jobs :=
  List.mergeSort_perm jobs jobLE

lemma mem_sortJobs {P : Type} {j : Job P} {jobs : List (Job P)} :
    j ∈ sortJobs jobs ↔ j ∈ jobs :=
  (sortJobs_perm jobs).mem_iff

lemma sortJobs_pairwise {P : Type} (jobs : List (Job P)) :
    (sortJobs jobs).Pairwise (fun a b => jobLE a b) :=
  List.sorted_mergeSort (fun a b c => jobLE_trans a b c) jobLE_total jobs

/-- In a list sorted for a reflexive relation, the first element satisfying a
predicate is below every element of the list satisfying the predicate. -/
lemma find?_min_of_pairwise {α : Type} {le : α → α → Bool} {p : α → Bool}
    (hrefl : ∀ a, le a a) :
    ∀ {l : List α}, l.Pairwise (fun a b => le a b) →
      ∀ {j : α}, l.find? p = some j → ∀ k ∈ l, p k → le j k := by
  intro l
  induction l with
  | nil => intro _ j hj; simp at hj
  | cons x xs ih =>
    intro hpw j hj k hk hp
    rw [List.pairwise_cons] at hpw
    cases hx : p x with
    | false =>
      rw [List.find?_cons_of_neg _ (by simp [hx])] at hj
      rcases List.mem_cons.mp hk with rfl | hk'
      · rw [hp] at hx; cases hx
      · exact ih hpw.2 hj k hk' hp
    | true =>
      rw [List.find?_cons_of_pos _ hx] at hj
      cases hj
      rcases List.mem_cons.mp hk with rfl | hk'
      · exact hrefl _
      · exact hpw.1 k hk'

/-- If the ids occurring in a job list are distinct, then looking up the id of
a member finds exactly that member. -/
lemma find?_id_of_nodup {P : Type} :
    ∀ {l : List (Job P)}, (l.map Job.id).Nodup →
      ∀ {w : Job P}, w ∈ l → l.find? (fun k => k.id = w.id) = some w := by
  intro l
  induction l with
  | nil => intro _ w hw; simp at hw
  | cons x xs ih =>
    intro hnd w hw
    rw [List.map_cons, List.nodup_cons] at hnd
    by_cases hx : x.id = w.id
    · rcases List.mem_cons.mp hw with rfl | hw'
      · exact List.find?_cons_of_pos _ (by simp)
      · exact absurd (by rw [hx]; exact List.mem_map_of_mem Job.id hw') hnd.1
    · rw [List.find?_cons_of_neg _ (by simp [hx])]
      rcases List.mem_cons.mp hw with rfl | hw'
      · exact absurd rfl hx
      · exact ih hnd.2 hw'

lemma updateFirst_map_id {P : Type} (id : Nat) (f : Job P → Job P)
    (hf : ∀ j, (f j).id = j.id) :
    ∀ (l : List (Job P)), (updateFirst l id f).map Job.id = l.map Job.id := by
  intro l
  induction l with
  | nil => rfl
  | cons x xs ih =>
    by_cases hx : x.id = id
    · simp [updateFirst, hx, hf]
    · simp [updateFirst, hx, ih]

lemma find?_updateFirst {P : Type} (id : Nat) (f : Job P → Job P)
    (hf : ∀ j, (f j).id = j.id) :
    ∀ (l : List (Job P)),
      (updateFirst l id f).find? (fun k => k.id = id) =
        (l.find? (fun k => k.id = id)).map f := by
  intro l
  induction l with
  | nil => rfl
  | cons x xs ih =>
    by_cases hx : x.id = id
    · simp [updateFirst, hx, List.find?_cons, hf]
    · simp [updateFirst, hx, List.find?_cons, ih]

/-- With distinct ids, every member of the updated list carrying the updated
id is the image of the job found in the original list. -/
lemma mem_updateFirst_of_id {P : Type} {l : List (Job P)} {id : Nat}
    {f : Job P → Job P} (hf : ∀ j, (f j).id = j.id)
    (hnd : (l.map Job.id).Nodup) {w : Job P}
    (hfind : l.find? (fun k => k.id = id) = some w) :
    ∀ k ∈ updateFirst l id f, k.id = id → k = f w := by
  intro k hk hkid
  have hnd' : ((updateFirst l id f).map Job.id).Nodup := by
    rw [updateFirst_map_id id f hf]; exact hnd
  have h1 : (updateFirst l id f).find? (fun j => j.id = k.id) = some k :=
    find?_id_of_nodup hnd' hk
  have h2 : (updateFirst l id f).find? (fun j => j.id = id) = some (f w) := by
    rw [find?_updateFirst id f hf, hfind]; rfl
  rw [hkid] at h1
  rw [h1] at h2
  exact Option.some_injective _ h2

lemma activateJob_id {P : Type} (now : Nat) (j : Job P) :
    (activateJob now j).id = j.id := rfl

/-- Exact computation of `MockStore.acquireJob` when the sorted scan finds a
waiting unlocked job. -/
lemma acquireJob_of_find_some {P : Type} (s : MockStore P) (now : Nat)
    {w : Job P} (hnd : (s.jobs.map Job.id).Nodup)
    (hfind : (sortJobs s.jobs).find? (MockStore.acquirable s.lockedJobsIds) =
      some w) :
    s.acquireJob now =
      (.ok (activateJob now w),
        { jobs := (updateFirst (sortJobs s.jobs) w.id (activateJob now)),
          lockedJobsIds :=
            ((s.lockedJobsIds ++ [w.id]).filter (fun i => i ≠ w.id)),
          nextId := s.nextId }) := by
  have hnds : ((sortJobs s.jobs).map Job.id).Nodup :=
    (((sortJobs_perm s.jobs).map Job.id).nodup_iff).mpr hnd
  have hwmem : w ∈ sortJobs s.jobs := List.mem_of_find?_eq_some hfind
  have hfid : (sortJobs s.jobs).find? (fun k => k.id = w.id) = some w :=
    find?_id_of_nodup hnds hwmem
  simp only [MockStore.acquireJob, hfind, MockStore.updateJobStateById, hfid,
    activateJob]
  rfl

/-- Exact computation of `MockStore.acquireJob` when the sorted scan finds no
waiting unlocked job: the error propagates and the store keeps the sorted
jobs array. -/
lemma acquireJob_of_find_none {P : Type} (s : MockStore P) (now : Nat)
    (hfind : (sortJobs s.jobs).find? (MockStore.acquirable s.lockedJobsIds) =
      none) :
    s.acquireJob now =
      (.error acquirableJobNotFoundError, { s with jobs := sortJobs s.jobs }) := by
  simp only [MockStore.acquireJob, hfind]

lemma retryAttempt_fail {A : Type} (fn : Nat → Except String A) (n : Int) :
    ∀ (d c : Nat), (n - c).toNat = d → 1 ≤ c → (c : Int) ≤ n →
      (∀ k, c ≤ k → (fn k).isOk = false) →
      ∃ m, fn n.toNat = .error m ∧
        retryAttempt fn n c = (.error ⟨n, m⟩, n.toNat - c + 1) := by
  intro d
  induction d with
  | zero =>
    intro c hd h1 h2 hf
    have hcn : c = n.toNat := by omega
    obtain ⟨m, hm⟩ : ∃ m, fn c = .error m := by
      cases hfc : fn c with
      | ok a =>
        have := hf c le_rfl
        rw [hfc] at this
        cases this
      | error m => exact ⟨m, rfl⟩
    refine ⟨m, by rw [← hcn]; exact hm, ?_⟩
    rw [retryAttempt, hm]
    have hge : (c : Int) ≥ n := by omega
    simp only [hge, if_true]
    have : n.toNat - c + 1 = 1 := by omega
    rw [this]
  | succ d ih =>
    intro c hd h1 h2 hf
    have hlt : (c : Int) < n := by omega
    obtain ⟨m, hm⟩ : ∃ m, fn c = .error m := by
      cases hfc : fn c with
      | ok a =>
        have := hf c le_rfl
        rw [hfc] at this
        cases this
      | error m => exact ⟨m, rfl⟩
    obtain ⟨m', hm', heq⟩ :=
      ih (c + 1) (by omega) (by omega) (by omega)
        (fun k hk => hf k (by omega))
    refine ⟨m', hm', ?_⟩
    rw [retryAttempt, hm]
    have hge : ¬ ((c : Int) ≥ n) := by omega
    simp only [hge, if_false, heq]
    have : n.toNat - (c + 1) + 1 + 1 = n.toNat - c + 1 := by omega
    rw [this]

lemma retryAttempt_success {A : Type} (fn : Nat → Except String A)
    (n : Int) (k : Nat) (a : A) (hk : fn k = .ok a) :
    ∀ (d c : Nat), k - c = d → 1 ≤ c → c ≤ k → (k : Int) ≤ n →
      (∀ j, j < k → (fn j).isOk = false) →
      retryAttempt fn n c = (.ok a, k - c + 1) := by
  intro d
  induction d with
  | zero =>
    intro c hd h1 h2 h3 hf
    have hck : c = k := by omega
    subst hck
    rw [retryAttempt, hk]
    have hcc : c - c + 1 = 1 := by omega
    rw [hcc]
  | succ d ih =>
    intro c hd h1 h2 h3 hf
    have hck : c < k := by omega
    obtain ⟨m, hm⟩ : ∃ m, fn c = .error m := by
      cases hfc : fn c with
      | ok b =>
        have := hf c hck
        rw [hfc] at this
        cases this
      | error m => exact ⟨m, rfl⟩
    rw [retryAttempt, hm]
    have hge : ¬ ((c : Int) ≥ n) := by omega
    have heq := ih (c + 1) (by omega) (by omega) (by omega) h3 hf
    simp only [hge, if_false, heq]
    have : k - (c + 1) + 1 + 1 = k - c + 1 := by omega
    rw [this]

/-- A run of `retry` on an always-failing function: the last attempt is
attempt `n` and the error wraps its message. -/
lemma retry_fail_run {A : Type} (fn : Nat → Except String A) (n : Int)
    (hn : 1 ≤ n) (hf : ∀ k, (fn k).isOk = false) :
    ∃ m, fn n.toNat = .error m ∧
      retry fn n = (.error ⟨n, m⟩, n.toNat) := by
  obtain ⟨m, hm, heq⟩ :=
    retryAttempt_fail fn n (n - 1).toNat 1 (by omega) le_rfl hn
      (fun k _ => hf k)
  refine ⟨m, hm, ?_⟩
  rw [retry, heq]
  have h1 : n.toNat - 1 + 1 = n.toNat := by omega
  rw [h1]

lemma emNormalized_normalizeEm {P : Type} (j : Job P) :
    emNormalized j.normalizeEm := by
  unfold emNormalized Job.normalizeEm normalizeErrorMessage
  cases j.errorMessage with
  | none => exact Or.inl rfl
  | some s =>
    by_cases hs : s = ""
    · simp [hs]
    · exact Or.inr ⟨s, by simp [hs], hs⟩

lemma find?_updateRows {P : Type}
    (bindEm : Option String → Option String → Option String)
    (now id : Nat) (state : JobState) (em : Option String) :
    ∀ (rows : List (Job P)),
      (SqlStore.updateRows bindEm rows now id state em).find?
          (fun r => r.id = id) =
        (rows.find? (fun r => r.id = id)).map
          (fun r => { r with state := state,
                             errorMessage := bindEm em r.errorMessage,
                             updatedAt := now }) := by
  intro rows
  induction rows with
  | nil => rfl
  | cons x xs ih =>
    by_cases hx : x.id = id
    · simp [SqlStore.updateRows, hx, List.find?_cons]
    · simp only [SqlStore.updateRows, List.map_cons, if_neg hx] at ih ⊢
      rw [List.find?_cons_of_neg _ (by simp [hx]),
        List.find?_cons_of_neg _ (by simp [hx]), ih]

lemma mem_updateRows_state {P : Type}
    (bindEm : Option String → Option String → Option String)
    (rows : List (Job P)) (now id : Nat) (state : JobState)
    (em : Option String) :
    ∀ k ∈ SqlStore.updateRows bindEm rows now id state em,
      k.id = id → k.state = state := by
  intro k hk hkid
  rcases List.mem_map.mp hk with ⟨r, hr, hrk⟩
  by_cases hrid : r.id = id
  · rw [← hrk]
    simp [hrid]
  · exfalso
    apply hrid
    rw [← hrk] at hkid
    simpa [if_neg hrid] using hkid

/-- Exact behaviour of the SQL `acquireJob` when a waiting row exists:
it returns the first waiting row in dequeue order, activated, and the
store's matching rows are activated. -/
lemma acquireJobWith_leases_minimal {P : Type}
    (bindEm : Option String → Option String → Option String)
    (t : SqlStore P) (now : Nat)
    (hnd : (t.rows.map Job.id).Nodup)
    (hw : ∃ j ∈ t.rows, j.state = JobState.waiting) :
    ∃ w j t', SqlStore.acquireJobWith bindEm t now = (.ok j, t') ∧
      w ∈ t.rows ∧ w.state = JobState.waiting ∧
      (∀ k ∈ t.rows, k.state = JobState.waiting → k.id ≠ w.id →
        compareJobs w k < 0) ∧
      j.id = w.id ∧ j.state = JobState.active ∧
      (∀ k ∈ t'.rows, k.id = w.id → k.state = JobState.active) := by
  obtain ⟨j0, hj0mem, hj0state⟩ := hw
  have hsome : ((sortJobs t.rows).find?
      (fun r => r.state = JobState.waiting)).isSome :=
    List.find?_isSome.mpr
      ⟨j0, mem_sortJobs.mpr hj0mem, by simp [hj0state]⟩
  rcases Option.isSome_iff_exists.mp hsome with ⟨w, hfind⟩
  have hwstate : w.state = JobState.waiting := by
    simpa using List.find?_some hfind
  have hwmem : w ∈ t.rows :=
    mem_sortJobs.mp (List.mem_of_find?_eq_some hfind)
  have hmin : ∀ k ∈ t.rows, k.state = JobState.waiting → k.id ≠ w.id →
      compareJobs w k < 0 := by
    intro k hk hkstate hkid
    have hle : jobLE w k = true :=
      find?_min_of_pairwise jobLE_refl (sortJobs_pairwise t.rows) hfind k
        (mem_sortJobs.mpr hk) (by simp [hkstate])
    have hle' : compareJobs w k ≤ 0 := by simpa [jobLE] using hle
    rcases lt_or_eq_of_le hle' with h | h
    · exact h
    · exact absurd ((compareJobs_eq_zero_iff w k).mp h).2.2.symm hkid
  have hfid : t.rows.find? (fun k => k.id = w.id) = some w :=
    find?_id_of_nodup hnd hwmem
  have hrows : (SqlStore.updateRows bindEm t.rows now w.id
      JobState.active none).find? (fun r => r.id = w.id) =
      some { w with state := JobState.active,
                    errorMessage := bindEm none w.errorMessage,
                    updatedAt := now } := by
    rw [find?_updateRows, hfid]
    rfl
  refine ⟨w,
    (Job.mk w.id w.payload JobState.active w.priority
      (bindEm none w.errorMessage) w.createdAt now).normalizeEm.normalizeEm,
    ⟨SqlStore.updateRows bindEm t.rows now w.id JobState.active none,
      t.nextId⟩,
    ?_, hwmem, hwstate, hmin, ?_, ?_, ?_⟩
  · unfold SqlStore.acquireJobWith SqlStore.updateJobStateById
    simp only [hfind, hrows]
  · simp [Job.normalizeEm]
  · simp [Job.normalizeEm]
  · exact fun k hk hkid =>
      mem_updateRows_state bindEm t.rows now w.id JobState.active none
        k hk hkid

/-- `MockStore.acquireJob` on a collection holding a waiting unlocked job:
it leases the minimal waiting unlocked job in dequeue order. -/
lemma mock_acquireJob_leases_minimal {P : Type}
    (s : MockStore P) (now : Nat)
    (hnd : (s.jobs.map Job.id).Nodup)
    (hw : ∃ j ∈ s.jobs, j.state = JobState.waiting ∧
      j.id ∉ s.lockedJobsIds) :
    ∃ w s', s.acquireJob now = (.ok (activateJob now w), s') ∧
      w ∈ s.jobs ∧ w.state = JobState.waiting ∧ w.id ∉ s.lockedJobsIds ∧
      (∀ k ∈ s.jobs, k.state = JobState.waiting → k.id ∉ s.lockedJobsIds →
        k.id ≠ w.id → compareJobs w k < 0) ∧
      (activateJob now w).state = JobState.active ∧
      (∀ k ∈ s'.jobs, k.id = w.id → k.state = JobState.active) := by
  obtain ⟨j0, hj0mem, hj0state, hj0lock⟩ := hw
  have hacq0 : MockStore.acquirable s.lockedJobsIds j0 = true := by
    simp [MockStore.acquirable, hj0state, hj0lock]
  have hsome : ((sortJobs s.jobs).find?
      (MockStore.acquirable s.lockedJobsIds)).isSome :=
    List.find?_isSome.mpr ⟨j0, mem_sortJobs.mpr hj0mem, hacq0⟩
  rcases Option.isSome_iff_exists.mp hsome with ⟨w, hfind⟩
  have heq := acquireJob_of_find_some s now hnd hfind
  have hwacq : MockStore.acquirable s.lockedJobsIds w = true :=
    List.find?_some hfind
  have hw2 : w.state = JobState.waiting ∧ w.id ∉ s.lockedJobsIds := by
    simpa [MockStore.acquirable] using hwacq
  have hwmem : w ∈ s.jobs :=
    mem_sortJobs.mp (List.mem_of_find?_eq_some hfind)
  have hmin : ∀ k ∈ s.jobs, k.state = JobState.waiting →
      k.id ∉ s.lockedJobsIds → k.id ≠ w.id → compareJobs w k < 0 := by
    intro k hk hkstate hklock hkid
    have hkacq : MockStore.acquirable s.lockedJobsIds k = true := by
      simp [MockStore.acquirable, hkstate, hklock]
    have hle : jobLE w k = true :=
      find?_min_of_pairwise jobLE_refl (sortJobs_pairwise s.jobs) hfind k
        (mem_sortJobs.mpr hk) hkacq
    have hle' : compareJobs w k ≤ 0 := by simpa [jobLE] using hle
    rcases lt_or_eq_of_le hle' with h | h
    · exact h
    · exact absurd ((compareJobs_eq_zero_iff w k).mp h).2.2.symm hkid
  refine ⟨w, _, heq, hwmem, hw2.1, hw2.2, hmin, rfl, ?_⟩
  intro k hk hkid
  have hnds : ((sortJobs s.jobs).map Job.id).Nodup :=
    (((sortJobs_perm s.jobs).map Job.id).nodup_iff).mpr hnd
  have hfid : (sortJobs s.jobs).find? (fun j => j.id = w.id) = some w :=
    find?_id_of_nodup hnds (List.mem_of_find?_eq_some hfind)
  have hk' : k ∈ updateFirst (sortJobs s.jobs) w.id (activateJob now) := hk
  have hkeq : k = activateJob now w :=
    mem_updateFirst_of_id (activateJob_id now) hnds hfid k hk' hkid
  rw [hkeq]
  rfl

/-- Exact behaviour of the SQL `acquireJob` when no waiting row exists:
`AcquirableJobNotFoundError`, and the rollback leaves the store exactly as
it was. -/
lemma acquireJobWith_of_no_waiting {P : Type}
    (bindEm : Option String → Option String → Option String)
    (t : SqlStore P) (now : Nat)
    (hw : ∀ j ∈ t.rows, j.state ≠ JobState.waiting) :
    SqlStore.acquireJobWith bindEm t now =
      (.error acquirableJobNotFoundError, t) := by
  have hnone : (sortJobs t.rows).find?
      (fun r => r.state = JobState.waiting) = none := by
    rw [List.find?_eq_none]
    intro x hx
    simp [hw x (mem_sortJobs.mp hx)]
  unfold SqlStore.acquireJobWith
  simp only [hnone]

lemma updateJobStateById_normalized {P : Type}
    (bindEm : Option String → Option String → Option String)
    (s : SqlStore P) (now id : Nat) (state : JobState)
    (em : Option String) :
    exceptEmNormalized
      (SqlStore.updateJobStateById bindEm s now id state em).1 := by
  unfold SqlStore.updateJobStateById
  cases h : (SqlStore.updateRows bindEm s.rows now id state em).find?
      (fun r => r.id = id) with
  | none => simp [h, exceptEmNormalized]
  | some r =>
    simp only [h]
    exact emNormalized_normalizeEm r

lemma acquireJobWith_normalized {P : Type}
    (bindEm : Option String → Option String → Option String)
    (s : SqlStore P) (now : Nat) :
    exceptEmNormalized (SqlStore.acquireJobWith bindEm s now).1 := by
  unfold SqlStore.acquireJobWith
  cases h : (sortJobs s.rows).find? (fun r => r.state = JobState.waiting) with
  | none => simp [h, exceptEmNormalized]
  | some w =>
    simp only [h]
    cases h2 : SqlStore.updateJobStateById bindEm s now w.id
        JobState.active none with
    | mk res s' =>
      cases res with
      | error e => simp [exceptEmNormalized]
      | ok j =>
        simp only []
        exact emNormalized_normalizeEm j

/-- C3: `compareJobs` implements the dequeue order as a strict total order on
jobs with distinct ids: `compareJobs a b < 0` iff `a` has strictly higher
priority, or equal priority and earlier `createdAt`, or both equal and smaller
id; `compareJobs a b = 0` iff priority, `createdAt` and id all coincide; and
the order is trichotomous. -/
theorem compareJobs_strict_total_order {P : Type} (a b : Job P) :
    (compareJobs a b < 0 ↔
      (b.priority < a.priority ∨
        (a.priority = b.priority ∧
          (a.createdAt < b.createdAt ∨
            (a.createdAt = b.createdAt ∧ a.id < b.id))))) ∧
    (compareJobs a b = 0 ↔
      (a.priority = b.priority ∧ a.createdAt = b.createdAt ∧ a.id = b.id)) ∧
    (compareJobs a b < 0 ∨ compareJobs a b = 0 ∨ compareJobs b a < 0) := by
  refine ⟨compareJobs_neg_iff a b, compareJobs_eq_zero_iff a b, ?_⟩
  rw [compareJobs_neg_iff, compareJobs_eq_zero_iff, compareJobs_neg_iff]
  omega

/-- C1: for every job collection with at least one waiting job (unlocked,
in the mock model), `acquireJob` — in the mock client, and in the
PostgreSQL and MySQL clients — returns the minimal waiting job under the
dequeue order (priority descending, then `createdAt` ascending, then id
ascending) with its state changed to `active`, and that job's state in the
store is `active` afterwards. -/
theorem acquireJob_leases_minimal_waiting {P : Type}
    (s : MockStore P) (t : SqlStore P) (now : Nat)
    (hnd : (s.jobs.map Job.id).Nodup)
    (hw : ∃ j ∈ s.jobs, j.state = JobState.waiting ∧
      j.id ∉ s.lockedJobsIds)
    (hndt : (t.rows.map Job.id).Nodup)
    (hwt : ∃ j ∈ t.rows, j.state = JobState.waiting) :
    (∃ w s', s.acquireJob now = (.ok (activateJob now w), s') ∧
      w ∈ s.jobs ∧ w.state = JobState.waiting ∧ w.id ∉ s.lockedJobsIds ∧
      (∀ k ∈ s.jobs, k.state = JobState.waiting → k.id ∉ s.lockedJobsIds →
        k.id ≠ w.id → compareJobs w k < 0) ∧
      (activateJob now w).state = JobState.active ∧
      (∀ k ∈ s'.jobs, k.id = w.id → k.state = JobState.active)) ∧
    (∃ w j t', t.pgAcquireJob now = (.ok j, t') ∧
      w ∈ t.rows ∧ w.state = JobState.waiting ∧
      (∀ k ∈ t.rows, k.state = JobState.waiting → k.id ≠ w.id →
        compareJobs w k < 0) ∧
      j.id = w.id ∧ j.state = JobState.active ∧
      (∀ k ∈ t'.rows, k.id = w.id → k.state = JobState.active)) ∧
    (∃ w j t', t.mySqlAcquireJob now = (.ok j, t') ∧
      w ∈ t.rows ∧ w.state = JobState.waiting ∧
      (∀ k ∈ t.rows, k.state = JobState.waiting → k.id ≠ w.id →
        compareJobs w k < 0) ∧
      j.id = w.id ∧ j.state = JobState.active ∧
      (∀ k ∈ t'.rows, k.id = w.id → k.state = JobState.active)) :=
  ⟨mock_acquireJob_leases_minimal s now hnd hw,
    acquireJobWith_leases_minimal SqlStore.pgBindEm t now hndt hwt,
    acquireJobWith_leases_minimal SqlStore.mySqlBindEm t now hndt hwt⟩

/-- Witness for C1: the mock store holds jobs of priorities 9 (completed),
5 and 7 (waiting); the SQL table holds one waiting row. -/
theorem acquireJob_leases_minimal_waiting_witness :
    (∃ w s', MockStore.acquireJob
        (⟨[⟨1, (), JobState.completed, 9, none, 0, 0⟩,
          ⟨2, (), JobState.waiting, 5, none, 3, 3⟩,
          ⟨3, (), JobState.waiting, 7, none, 4, 4⟩], [], 4⟩ :
            MockStore Unit) 100 = (.ok (activateJob 100 w), s') ∧
      w ∈ [⟨1, (), JobState.completed, 9, none, 0, 0⟩,
          ⟨2, (), JobState.waiting, 5, none, 3, 3⟩,
          ⟨3, (), JobState.waiting, 7, none, 4, 4⟩] ∧
      w.state = JobState.waiting ∧ w.id ∉ ([] : List Nat) ∧
      (∀ k ∈ [⟨1, (), JobState.completed, 9, none, 0, 0⟩,
          ⟨2, (), JobState.waiting, 5, none, 3, 3⟩,
          ⟨3, (), JobState.waiting, 7, none, 4, 4⟩],
        k.state = JobState.waiting → k.id ∉ ([] : List Nat) →
        k.id ≠ w.id → compareJobs w k < 0) ∧
      (activateJob 100 w).state = JobState.active ∧
      (∀ k ∈ s'.jobs, k.id = w.id → k.state = JobState.active)) ∧
    (∃ w j t', SqlStore.pgAcquireJob
        (⟨[⟨1, (), JobState.waiting, 5, none, 0, 0⟩], 2⟩ : SqlStore Unit)
        100 = (.ok j, t') ∧
      w ∈ [⟨1, (), JobState.waiting, 5, none, 0, 0⟩] ∧
      w.state = JobState.waiting ∧
      (∀ k ∈ [(⟨1, (), JobState.waiting, 5, none, 0, 0⟩ : Job Unit)],
        k.state = JobState.waiting → k.id ≠ w.id → compareJobs w k < 0) ∧
      j.id = w.id ∧ j.state = JobState.active ∧
      (∀ k ∈ t'.rows, k.id = w.id → k.state = JobState.active)) ∧
    (∃ w j t', SqlStore.mySqlAcquireJob
        (⟨[⟨1, (), JobState.waiting, 5, none, 0, 0⟩], 2⟩ : SqlStore Unit)
        100 = (.ok j, t') ∧
      w ∈ [⟨1, (), JobState.waiting, 5, none, 0, 0⟩] ∧
      w.state = JobState.waiting ∧
      (∀ k ∈ [(⟨1, (), JobState.waiting, 5, none, 0, 0⟩ : Job Unit)],
        k.state = JobState.waiting → k.id ≠ w.id → compareJobs w k < 0) ∧
      j.id = w.id ∧ j.state = JobState.active ∧
      (∀ k ∈ t'.rows, k.id = w.id → k.state = JobState.active)) :=
  acquireJob_leases_minimal_waiting
    ⟨[⟨1, (), JobState.completed, 9, none, 0, 0⟩,
      ⟨2, (), JobState.waiting, 5, none, 3, 3⟩,
      ⟨3, (), JobState.waiting, 7, none, 4, 4⟩], [], 4⟩
    ⟨[⟨1, (), JobState.waiting, 5, none, 0, 0⟩], 2⟩ 100
    (by decide) (by decide) (by decide) (by decide)

/-- C2: with no waiting job in the collection, `acquireJob` fails with
`AcquirableJobNotFoundError` (a value of the `JobNotFoundError` taxonomy)
and the rolled-back transaction leaves every job's state unchanged: the
mock store's jobs array is merely re-sorted in place (a permutation of the
same job values, locked ids untouched, so no job becomes `active`), and the
PostgreSQL/MySQL stores are returned exactly as they were. -/
theorem acquireJob_no_waiting_rolls_back {P : Type}
    (s : MockStore P) (t : SqlStore P) (now : Nat)
    (hw : ∀ j ∈ s.jobs, j.state ≠ JobState.waiting)
    (hwt : ∀ j ∈ t.rows, j.state ≠ JobState.waiting) :
    ((s.acquireJob now).1 = .error acquirableJobNotFoundError ∧
      (s.acquireJob now).2.jobs.Perm s.jobs ∧
      (s.acquireJob now).2.lockedJobsIds = s.lockedJobsIds) ∧
    t.pgAcquireJob now = (.error acquirableJobNotFoundError, t) ∧
    t.mySqlAcquireJob now = (.error acquirableJobNotFoundError, t) := by
  refine ⟨?_, acquireJobWith_of_no_waiting SqlStore.pgBindEm t now hwt,
    acquireJobWith_of_no_waiting SqlStore.mySqlBindEm t now hwt⟩
  have hnone : (sortJobs s.jobs).find?
      (MockStore.acquirable s.lockedJobsIds) = none := by
    rw [List.find?_eq_none]
    intro x hx
    simp [MockStore.acquirable, hw x (mem_sortJobs.mp hx)]
  rw [acquireJob_of_find_none s now hnone]
  exact ⟨rfl, sortJobs_perm s.jobs, rfl⟩

/-- Witness for C2: a mock store holding one active and one failed job, a
SQL table holding one completed row; both lease attempts fail and the
stores keep their jobs. -/
theorem acquireJob_no_waiting_rolls_back_witness :
    ((MockStore.acquireJob
        (⟨[⟨1, (), JobState.active, 5, none, 0, 0⟩,
          ⟨2, (), JobState.failed, 8, some "boom", 1, 2⟩], [7], 3⟩ :
            MockStore Unit) 50).1 =
      .error acquirableJobNotFoundError ∧
      (MockStore.acquireJob
        (⟨[⟨1, (), JobState.active, 5, none, 0, 0⟩,
          ⟨2, (), JobState.failed, 8, some "boom", 1, 2⟩], [7], 3⟩ :
            MockStore Unit) 50).2.jobs.Perm
        [⟨1, (), JobState.active, 5, none, 0, 0⟩,
          ⟨2, (), JobState.failed, 8, some "boom", 1, 2⟩] ∧
      (MockStore.acquireJob
        (⟨[⟨1, (), JobState.active, 5, none, 0, 0⟩,
          ⟨2, (), JobState.failed, 8, some "boom", 1, 2⟩], [7], 3⟩ :
            MockStore Unit) 50).2.lockedJobsIds = [7]) ∧
    SqlStore.pgAcquireJob
        (⟨[⟨1, (), JobState.completed, 5, none, 0, 0⟩], 2⟩ : SqlStore Unit)
        50 =
      (.error acquirableJobNotFoundError,
        ⟨[⟨1, (), JobState.completed, 5, none, 0, 0⟩], 2⟩) ∧
    SqlStore.mySqlAcquireJob
        (⟨[⟨1, (), JobState.completed, 5, none, 0, 0⟩], 2⟩ : SqlStore Unit)
        50 =
      (.error acquirableJobNotFoundError,
        ⟨[⟨1, (), JobState.completed, 5, none, 0, 0⟩], 2⟩) :=
  acquireJob_no_waiting_rolls_back
    ⟨[⟨1, (), JobState.active, 5, none, 0, 0⟩,
      ⟨2, (), JobState.failed, 8, some "boom", 1, 2⟩], [7], 3⟩
    ⟨[⟨1, (), JobState.completed, 5, none, 0, 0⟩], 2⟩ 50
    (by decide) (by decide)

/-- C7: `drain` removes exactly the waiting jobs — no waiting job remains,
every non-waiting job is still present (unchanged, being the same value),
nothing new appears, and the rest of the store is untouched. -/
theorem drain_removes_exactly_waiting {P : Type} (s : MockStore P) :
    (∀ j ∈ s.drain.jobs, j.state ≠ JobState.waiting) ∧
    (∀ j ∈ s.jobs, j.state ≠ JobState.waiting → j ∈ s.drain.jobs) ∧
    (∀ j ∈ s.drain.jobs, j ∈ s.jobs) ∧
    s.drain.lockedJobsIds = s.lockedJobsIds ∧
    s.drain.nextId = s.nextId := by
  refine ⟨?_, ?_, ?_, rfl, rfl⟩
  · intro j hj
    have hp := (List.mem_filter.mp hj).2
    simpa [MockStore.drain, MockStore.deleteJobsByState] using hp
  · intro j hj hns
    refine List.mem_filter.mpr ⟨hj, ?_⟩
    simpa [MockStore.drain, MockStore.deleteJobsByState] using hns
  · intro j hj
    exact (List.mem_filter.mp hj).1

/-- C4: for `maxRetries = n ≥ 1`, a function that fails on every call is
called exactly `n` times (the first attempt counts toward the limit) and
`retry` then fails with a `MaxRetriesError` whose message is
`"Function failed after " ++ n ++ " retries: " ++ <last error message>`;
and when the function succeeds on attempt `k ≤ n` (failing before it),
`retry` returns its result after exactly `k` calls with no
`MaxRetriesError`. -/
theorem retry_spec {A : Type} (fn : Nat → Except String A) (n : Int)
    (hn : 1 ≤ n) :
    ((∀ k, (fn k).isOk = false) →
      ∃ m, fn n.toNat = .error m ∧
        retry fn n = (.error ⟨n, m⟩, n.toNat) ∧
        MaxRetriesError.message ⟨n, m⟩ =
          "Function failed after " ++ toString n ++ " retries: " ++ m) ∧
    (∀ (k : Nat) (a : A), 1 ≤ k → (k : Int) ≤ n → fn k = .ok a →
      (∀ j, j < k → (fn j).isOk = false) →
      retry fn n = (.ok a, k)) := by
  constructor
  · intro hf
    obtain ⟨m, hm, heq⟩ :=
      retryAttempt_fail fn n (n - 1).toNat 1 (by omega) le_rfl hn
        (fun k _ => hf k)
    refine ⟨m, hm, ?_, rfl⟩
    rw [retry, heq]
    have : n.toNat - 1 + 1 = n.toNat := by omega
    rw [this]
  · intro k a h1 h2 hk hf
    have heq := retryAttempt_success fn n k a hk (k - 1) 1 rfl le_rfl h1 h2 hf
    rw [retry, heq]
    have : k - 1 + 1 = k := by omega
    rw [this]

/-- Witness for C4: with `maxRetries = 3` and a function failing every call
with message `"boom"`, `retry` makes 3 calls and fails with the composed
message. -/
theorem retry_spec_witness :
    (1 : Int) ≤ 3 ∧
    (((∀ k, ((fun (_ : Nat) => (.error "boom" : Except String Unit)) k).isOk
          = false) →
      ∃ m, (fun (_ : Nat) => (.error "boom" : Except String Unit)) (3 : Int).toNat =
          .error m ∧
        retry (fun (_ : Nat) => (.error "boom" : Except String Unit)) 3 =
          (.error ⟨3, m⟩, (3 : Int).toNat) ∧
        MaxRetriesError.message ⟨3, m⟩ =
          "Function failed after " ++ toString (3 : Int) ++ " retries: "
            ++ m) ∧
    (∀ (k : Nat) (a : Unit), 1 ≤ k → (k : Int) ≤ 3 →
      (fun (_ : Nat) => (.error "boom" : Except String Unit)) k = .ok a →
      (∀ j, j < k →
        ((fun (_ : Nat) => (.error "boom" : Except String Unit)) j).isOk = false) →
      retry (fun (_ : Nat) => (.error "boom" : Except String Unit)) 3 = (.ok a, k))) :=
  ⟨by decide, retry_spec (fun (_ : Nat) => (.error "boom" : Except String Unit)) 3
    (by decide)⟩

/-- C9: for `maxRetries = n ≤ 1` (including 0 and negatives) the function is
still called exactly once — the first attempt happens before the limit is
consulted — and a failing first attempt is wrapped as a `MaxRetriesError`
reporting `n` retries. -/
theorem retry_single_attempt {A : Type} (fn : Nat → Except String A)
    (n : Int) (hn : n ≤ 1) :
    (retry fn n).2 = 1 ∧
    (∀ a, fn 1 = .ok a → retry fn n = (.ok a, 1)) ∧
    (∀ m, fn 1 = .error m → retry fn n = (.error ⟨n, m⟩, 1)) := by
  have hstep : ∀ r, fn 1 = r → retry fn n =
      (match r with
       | .ok a => (.ok a, 1)
       | .error m => (.error ⟨n, m⟩, 1)) := by
    intro r hr
    rw [retry, retryAttempt, hr]
    cases r with
    | ok a => rfl
    | error m =>
      have hge : ((1 : Nat) : Int) ≥ n := by omega
      simp only [hge, if_true]
  refine ⟨?_, ?_, ?_⟩
  · rw [hstep (fn 1) rfl]
    cases fn 1 <;> rfl
  · intro a ha; exact hstep _ ha
  · intro m hm; exact hstep _ hm

/-- Witness for C9: with `maxRetries = 0`, a failing function is called once
and the error reports 0 retries. -/
theorem retry_single_attempt_witness :
    (0 : Int) ≤ 1 ∧
    ((retry (fun (_ : Nat) => (.error "boom" : Except String Unit)) 0).2 = 1 ∧
    (∀ a, (fun (_ : Nat) => (.error "boom" : Except String Unit)) 1 = .ok a →
      retry (fun (_ : Nat) => (.error "boom" : Except String Unit)) 0 = (.ok a, 1)) ∧
    (∀ m, (fun (_ : Nat) => (.error "boom" : Except String Unit)) 1 = .error m →
      retry (fun (_ : Nat) => (.error "boom" : Except String Unit)) 0 =
        (.error ⟨0, m⟩, 1))) :=
  ⟨by decide, retry_single_attempt
    (fun (_ : Nat) => (.error "boom" : Except String Unit)) 0 (by decide)⟩

/-- C5: when the processor fails on every attempt and a waiting job is
available, the processing step leases the minimal waiting job, emits
`activated` then `failed`, calls the processor exactly `K = maxRetries`
times, and leaves the job `failed` with `errorMessage` equal to
`"Function failed after K retries: " ++ <last processor error>`. -/
theorem processJob_failing_processor {P : Type} (s : MockStore P) (now : Nat)
    (proc : Job P → Nat → Except String Unit) (K : Int)
    (hK : 1 ≤ K)
    (hnd : (s.jobs.map Job.id).Nodup)
    (hw : ∃ j ∈ s.jobs, j.state = JobState.waiting ∧
      j.id ∉ s.lockedJobsIds)
    (hfail : ∀ j k, (proc j k).isOk = false) :
    ∃ (aj fj : Job P) (m : String) (s' : MockStore P),
      processJob now proc K s =
        (.ok (), s', [.activated aj, .failed fj ⟨K, m⟩], K.toNat) ∧
      aj.state = JobState.active ∧
      fj = { aj with state := JobState.failed,
                     errorMessage := some (MaxRetriesError.message ⟨K, m⟩),
                     updatedAt := now } ∧
      fj.state = JobState.failed ∧
      fj.errorMessage = some (MaxRetriesError.message ⟨K, m⟩) ∧
      MaxRetriesError.message ⟨K, m⟩ =
        "Function failed after " ++ toString K ++ " retries: " ++ m ∧
      proc aj K.toNat = .error m ∧
      s'.jobs.find? (fun k => k.id = aj.id) = some fj := by
  obtain ⟨j0, hj0mem, hj0state, hj0lock⟩ := hw
  have hacq0 : MockStore.acquirable s.lockedJobsIds j0 = true := by
    simp [MockStore.acquirable, hj0state, hj0lock]
  have hsome : ((sortJobs s.jobs).find?
      (MockStore.acquirable s.lockedJobsIds)).isSome :=
    List.find?_isSome.mpr ⟨j0, mem_sortJobs.mpr hj0mem, hacq0⟩
  rcases Option.isSome_iff_exists.mp hsome with ⟨w, hfind⟩
  have heqacq := acquireJob_of_find_some s now hnd hfind
  obtain ⟨m, hm, hretry⟩ :=
    retry_fail_run (proc (activateJob now w)) K hK (fun k => hfail _ k)
  have hnds : ((sortJobs s.jobs).map Job.id).Nodup :=
    (((sortJobs_perm s.jobs).map Job.id).nodup_iff).mpr hnd
  have hfid : (sortJobs s.jobs).find? (fun j => j.id = w.id) = some w :=
    find?_id_of_nodup hnds (List.mem_of_find?_eq_some hfind)
  have hfid1 : (updateFirst (sortJobs s.jobs) w.id
      (activateJob now)).find? (fun j => j.id = w.id) =
      some (activateJob now w) := by
    rw [find?_updateFirst w.id (activateJob now) (activateJob_id now), hfid]
    rfl
  refine ⟨activateJob now w,
    failJob now (MaxRetriesError.message ⟨K, m⟩) (activateJob now w),
    m,
    ⟨updateFirst (updateFirst (sortJobs s.jobs) w.id (activateJob now)) w.id
        (failJob now (MaxRetriesError.message ⟨K, m⟩)),
      (s.lockedJobsIds ++ [w.id]).filter (fun i => i ≠ w.id),
      s.nextId⟩,
    ?_, rfl, rfl, rfl, rfl, rfl, hm, ?_⟩
  · simp only [processJob, heqacq, hretry, MockStore.updateJobStateById,
      activateJob_id, hfid1]
    rfl
  · have hstep := find?_updateFirst w.id
      (failJob now (MaxRetriesError.message ⟨K, m⟩)) (fun _ => rfl)
      (updateFirst (sortJobs s.jobs) w.id (activateJob now))
    rw [show (activateJob now w).id = w.id from rfl]
    exact hstep.trans (by rw [hfid1]; rfl)

/-- Witness for C5: one waiting job, a processor failing every call with
`"boom"`, `maxRetries = 3`. -/
theorem processJob_failing_processor_witness :
    ∃ (aj fj : Job Unit) (m : String) (s' : MockStore Unit),
      processJob 100
        (fun (_ : Job Unit) (_ : Nat) => (.error "boom" : Except String Unit))
        3 ⟨[⟨1, (), JobState.waiting, 5, none, 0, 0⟩], [], 2⟩ =
        (.ok (), s', [.activated aj, .failed fj ⟨3, m⟩], (3 : Int).toNat) ∧
      aj.state = JobState.active ∧
      fj = { aj with state := JobState.failed,
                     errorMessage := some (MaxRetriesError.message ⟨3, m⟩),
                     updatedAt := 100 } ∧
      fj.state = JobState.failed ∧
      fj.errorMessage = some (MaxRetriesError.message ⟨3, m⟩) ∧
      MaxRetriesError.message ⟨3, m⟩ =
        "Function failed after " ++ toString (3 : Int) ++ " retries: " ++ m ∧
      (fun (_ : Job Unit) (_ : Nat) => (.error "boom" : Except String Unit))
        aj (3 : Int).toNat = .error m ∧
      s'.jobs.find? (fun k => k.id = aj.id) = some fj :=
  processJob_failing_processor
    ⟨[⟨1, (), JobState.waiting, 5, none, 0, 0⟩], [], 2⟩ 100
    (fun (_ : Job Unit) (_ : Nat) => (.error "boom" : Except String Unit)) 3
    (by decide) (by decide) (by decide) (fun _ _ => rfl)

/-- C10: every job returned by the PostgreSQL/MySQL client operations
(`insertJob`, `updateJobStateById`, `acquireJob`) carries an
`errorMessage` that is either absent or a non-empty string — never `NULL`
and never the empty string — because falsy database values are normalized
away before the job is returned. -/
theorem client_errorMessage_normalized {P : Type} (s : SqlStore P)
    (now id : Nat) (payload : P) (state : JobState) (priority : Int)
    (em : Option String) :
    emNormalized (s.pgInsertJob now payload state priority).1 ∧
    emNormalized (s.mySqlInsertJob now payload state priority).1 ∧
    exceptEmNormalized (s.pgUpdateJobStateById now id state em).1 ∧
    exceptEmNormalized (s.mySqlUpdateJobStateById now id state em).1 ∧
    exceptEmNormalized (s.pgAcquireJob now).1 ∧
    exceptEmNormalized (s.mySqlAcquireJob now).1 := by
  refine ⟨?_, ?_, ?_, ?_, ?_, ?_⟩
  · exact emNormalized_normalizeEm _
  · exact emNormalized_normalizeEm _
  · exact updateJobStateById_normalized SqlStore.pgBindEm s now id state em
  · exact updateJobStateById_normalized SqlStore.mySqlBindEm s now id state em
  · exact acquireJobWith_normalized SqlStore.pgBindEm s now
  · exact acquireJobWith_normalized SqlStore.mySqlBindEm s now

/-- C8: in the MySQL client, `updateJobStateById(id, completed)` with no
`errorMessage` argument, applied to a job whose stored `errorMessage` is a
(non-empty) string, does not clear it: both the returned job and the row
left in the store keep the previous `errorMessage` value. -/
theorem mySql_update_completed_keeps_errorMessage {P : Type}
    (s : SqlStore P) (now id : Nat) (r : Job P) (msg : String)
    (hfind : s.rows.find? (fun j => j.id = id) = some r)
    (hem : r.errorMessage = some msg) (hmsg : msg ≠ "") :
    ∃ j, (s.mySqlUpdateJobStateById now id JobState.completed none).1 =
        .ok j ∧
      j.errorMessage = some msg ∧
      j.state = JobState.completed ∧
      ((s.mySqlUpdateJobStateById now id JobState.completed
          none).2.rows.find? (fun k => k.id = id)).map Job.errorMessage =
        some (some msg) := by
  have hrows : (SqlStore.updateRows SqlStore.mySqlBindEm s.rows now id
      JobState.completed none).find? (fun k => k.id = id) =
      some { r with state := JobState.completed,
                    errorMessage := SqlStore.mySqlBindEm none r.errorMessage,
                    updatedAt := now } := by
    rw [find?_updateRows, hfind]
    rfl
  have hbind : SqlStore.mySqlBindEm none r.errorMessage = some msg := by
    rw [hem]; rfl
  rw [hbind] at hrows
  refine ⟨(Job.mk r.id r.payload JobState.completed r.priority (some msg)
    r.createdAt now).normalizeEm, ?_, ?_, ?_, ?_⟩
  · unfold SqlStore.mySqlUpdateJobStateById SqlStore.updateJobStateById
    simp only [hrows]
  · simp [Job.normalizeEm, normalizeErrorMessage, hmsg]
  · rfl
  · unfold SqlStore.mySqlUpdateJobStateById SqlStore.updateJobStateById
    simp only [hrows]
    rfl

/-- Witness for C8: a single completed-transition on a store whose only row
carries `errorMessage = "old failure"`. -/
theorem mySql_update_completed_keeps_errorMessage_witness :
    ∃ j, (SqlStore.mySqlUpdateJobStateById
        (⟨[⟨1, (), JobState.active, 5, some "old failure", 0, 1⟩], 2⟩ :
          SqlStore Unit) 7 1 JobState.completed none).1 = .ok j ∧
      j.errorMessage = some "old failure" ∧
      j.state = JobState.completed ∧
      ((SqlStore.mySqlUpdateJobStateById
          (⟨[⟨1, (), JobState.active, 5, some "old failure", 0, 1⟩], 2⟩ :
            SqlStore Unit) 7 1 JobState.completed none).2.rows.find?
        (fun k => k.id = 1)).map Job.errorMessage =
        some (some "old failure") :=
  mySql_update_completed_keeps_errorMessage
    ⟨[⟨1, (), JobState.active, 5, some "old failure", 0, 1⟩], 2⟩ 7 1
    ⟨1, (), JobState.active, 5, some "old failure", 0, 1⟩ "old failure"
    (by decide) (by decide) (by decide)

/-- C6: constructing a queue whose name is already live in the process
registry throws synchronously with a message containing
`Queue with name '<name>' already exists`, and the registry is unchanged;
once `close` has freed the name, construction under that name succeeds. -/
theorem queue_duplicate_name_rejected (reg : List String) (name : String)
    (h : name ∈ reg) :
    (∃ pre post, (queueRegister reg name).1 =
      .error (pre ++ ("Queue with name '" ++ name ++ "' already exists")
        ++ post)) ∧
    (queueRegister reg name).2 = reg ∧
    name ∉ queueClose reg name ∧
    (queueRegister (queueClose reg name) name).1 = .ok () ∧
    (queueRegister (queueClose reg name) name).2 =
      queueClose reg name ++ [name] := by
  have hnot : name ∉ queueClose reg name := by
    intro hmem
    have := (List.mem_filter.mp hmem).2
    simp at this
  have hmsg : duplicateQueueMessage name =
      "" ++ ("Queue with name '" ++ name ++ "' already exists") ++ "." := by
    have h0 : ("" : String) ++
        (("Queue with name '" ++ name) ++ "' already exists") =
        ("Queue with name '" ++ name) ++ "' already exists" := rfl
    show ("Queue with name '" ++ name) ++ "' already exists." = _
    conv_rhs => rw [h0, String.append_assoc]
    rfl
  refine ⟨⟨"", ".", ?_⟩, ?_, hnot, ?_, ?_⟩
  · rw [← hmsg]
    simp [queueRegister, h]
  · simp [queueRegister, h]
  · simp [queueRegister, hnot]
  · simp [queueRegister, hnot]

/-- Witness for C6: the registry `["Q"]` rejects a second `"Q"`; after
closing, `"Q"` registers again. -/
theorem queue_duplicate_name_rejected_witness :
    (∃ pre post, (queueRegister ["Q"] "Q").1 =
      .error (pre ++ ("Queue with name '" ++ "Q" ++ "' already exists")
        ++ post)) ∧
    (queueRegister ["Q"] "Q").2 = ["Q"] ∧
    "Q" ∉ queueClose ["Q"] "Q" ∧
    (queueRegister (queueClose ["Q"] "Q") "Q").1 = .ok () ∧
    (queueRegister (queueClose ["Q"] "Q") "Q").2 =
      queueClose ["Q"] "Q" ++ ["Q"] :=
  queue_duplicate_name_rejected ["Q"] "Q" (by decide)

end Racunis
